import Mathlib

/-!
Verification development for the EV sound analysis pipeline
(scripts/analyzer.py).  The definitions below are a shallow embedding of
the program: audio samples and spectrum magnitudes are modelled as lists
of rationals, the external numeric primitives (A-weighting filter,
Blackman-Harris window, FFT magnitude, base-10 logarithm and the label
formatter) are abstract function parameters, and Python exceptions are
modelled with Except.
-/

namespace EvSound

/-- Analysis frame length, Analyzer.block_size (analyzer.py line 61). -/
def block_size : Nat := 65536

/-- Index of the first occurrence of the maximum of a list, the behaviour
of np.argmax (analyzer.py line 219).  Returns 0 on the empty list. -/
def argmaxFirst : List ℚ → ℕ
  | [] => 0
  | [_] => 0
  | x :: y :: t =>
    let j := argmaxFirst (y :: t)
    if x < (y :: t).getD j 0 then j + 1 else 0

/-- Sum of squared samples of the frame starting at sample hop * k with
nominal length N, the quantity np.sum(np.power(x, 2)) over the slice
data[hop*frame : hop*frame + frame_size] (analyzer.py lines 215-216).
Python slicing truncates silently at the end of the list, as take does. -/
def frameSumSq (data : List ℚ) (hop N k : ℕ) : ℚ :=
  (((data.drop (hop * k)).take N).map (fun v => v ^ 2)).sum

/-- Mean square of a frame: (1/frame_size) * sum of squares
(analyzer.py line 216).  The source then takes the square root; the
square root is omitted here because it does not exist on the rationals,
and the frame-selector theorems show that the selected index is also the
first maximiser of the true RMS values sqrt of the mean square, the
square root being strictly monotone on nonnegative values. -/
def frameMeanSq (data : List ℚ) (hop N k : ℕ) : ℚ :=
  (1 / (N : ℚ)) * frameSumSq data hop N k

/-- Analyzer.find_greatest_energy (analyzer.py lines 210-219): hop is
int((1/4)*frame_size) which equals Nat division by 4, the number of
frames examined is (len(data) // frame_size) * 4, and the returned
offset is hop times the first index attaining the maximal frame energy. -/
def find_greatest_energy (data : List ℚ) (N : ℕ) : ℕ :=
  let hop := N / 4
  let frames := (data.length / N) * 4
  hop * argmaxFirst ((List.range frames).map (frameMeanSq data hop N))

/-- Loop state of the band-grouping recurrence of
Analyzer.one_third_octaves (analyzer.py lines 122-134): the values of
the variables step, nbins, start_bin and stop_bin when band k is about
to be summed. -/
structure BandCursor where
  step : ℕ
  nbins : ℕ
  start : ℕ
  stop : ℕ
deriving Repr, DecidableEq

/-- State of the band-grouping loop before band i (analyzer.py lines
123-134).  Initially step=1, nbins=3, start_bin=13, stop_bin=16; after
band i the code does start_bin += nbins, nbins += step,
stop_bin += nbins (the updated nbins), and doubles step when
(i+1) % 3 == 0. -/
def bandCursor : ℕ → BandCursor
  | 0 => ⟨1, 3, 13, 16⟩
  | i + 1 =>
    let c := bandCursor i
    { step := if (i + 1) % 3 == 0 then c.step * 2 else c.step
      nbins := c.nbins + c.step
      start := c.start + c.nbins
      stop := c.stop + (c.nbins + c.step) }

/-- The 28 band energies of Analyzer.one_third_octaves (analyzer.py
lines 128-129): band k sums the magnitude spectrum over the Python slice
m[start_bin:stop_bin]. -/
def bandEnergies (m : List ℚ) : List ℚ :=
  (List.range 28).map
    (fun k => ((m.drop (bandCursor k).start).take
      ((bandCursor k).stop - (bandCursor k).start)).sum)

/-- Analyzer.one_third_octaves (analyzer.py lines 89-136).  The
Blackman-Harris windowing and the FFT magnitude np.abs(fftpack.fft(.))
are abstract parameters window and fftMag; only the first
x.length / 2 spectrum bins are retained, mirroring y[range(L//2)].
fmt abstracts the label formatter str(int(round(2**((b-30)/3)*1000)))
whose rounding of an irrational frequency is floating point in the
source; the label list is sliced [15:], keeping 13 of the 28 labels. -/
def one_third_octaves (fftMag window : List ℚ → List ℚ) (fmt : ℕ → String)
    (x : List ℚ) : List String × List ℕ × List ℚ :=
  let m := (fftMag (window x)).take (x.length / 2)
  let bands := (List.range 28).map (fun i => 10 + i)
  let xticks := (bands.map fmt).drop 15
  (xticks, bands, bandEnergies m)

/-- Analyzer.calibrate (analyzer.py lines 167-188): select the frame of
greatest energy, apply the A-weighting filter aWeight, the
Blackman-Harris window, take the FFT magnitudes of the first N/2 bins,
sum the squared magnitudes scaled by 2/N and convert with
20 * log10.  log10 is an abstract parameter since the real base-10
logarithm is not computable. -/
def calibrate (log10 : ℚ → ℚ) (fftMag aWeight window : List ℚ → List ℚ)
    (audio : List ℚ) (N : ℕ) : ℚ :=
  let idx := find_greatest_energy audio N
  let cal_audio := (audio.drop idx).take N
  let cal_a := aWeight cal_audio
  let cal_aw := window cal_a
  let m := (fftMag cal_aw).take (N / 2)
  let total_energy := (2 / (N : ℚ)) * (m.map (fun v => v ^ 2)).sum
  20 * log10 total_energy

/-- CalibrationProfile of the data model: the target level parsed from
the calibration filename (self.cal_target, analyzer.py line 158) and
the measured level returned by calibrate (self.cal, line 62). -/
structure CalibrationProfile where
  target_level_db : ℚ
  measured_level_db : ℚ

/-- Additive calibration offset, the quantity self.cal_target - self.cal
added to every band measurement (analyzer.py line 259). -/
def offset_db (p : CalibrationProfile) : ℚ :=
  p.target_level_db - p.measured_level_db

/-- Error kinds of the analyzer.  The first three model the three
distinct RuntimeError raises of Analyzer.validate_audio (analyzer.py
lines 430-437); metadataParseFailure models the incidental
UnboundLocalError escaping Analyzer.get_test_details after the printed
message; unknownTestType models the KeyError of the spec lookup
(line 283). -/
inductive AnalyzerError where
  | invalidAudioLength
  | invalidSampleRate
  | invalidChannelCount
  | metadataParseFailure
  | unknownTestType
deriving Repr, DecidableEq

/-- Analyzer.validate_audio (analyzer.py lines 412-438): shape0 is
x.shape[0], ndim is x.ndim.  The three checks run in source order. -/
def validate_audio (cal_fs shape0 fs ndim : ℕ) : Except AnalyzerError Unit :=
  if shape0 < block_size then .error .invalidAudioLength
  else if fs ≠ cal_fs then .error .invalidSampleRate
  else if ndim > 1 then .error .invalidChannelCount
  else .ok ()

/-- Per-band calibration of Analyzer.analyze (analyzer.py lines
257-259): energy = (2/N)*abs(energy); energy = 20*log10(energy);
energy += cal_target - cal, elementwise over the band energies. -/
def calibrateBands (log10 : ℚ → ℚ) (cal cal_target : ℚ) (N : ℕ)
    (raw : List ℚ) : List ℚ :=
  raw.map (fun e => 20 * log10 ((2 / (N : ℚ)) * |e|) + (cal_target - cal))

/-- AnalysisResult, the dictionary built by Analyzer.analyze
(analyzer.py lines 261-266). -/
structure AnalysisResult where
  audio : List ℚ
  bands : List ℕ
  energy : List ℚ
  xticks : List String
  frame_idx : ℕ
deriving Repr, DecidableEq

/-- Analyzer.analyze (analyzer.py lines 221-268).  Loading delegates to
validate_audio first (load, line 84), then the greatest-energy frame of
length block_size is extracted, A-weighted, split into 1/3 octave bands
and calibrated. -/
def analyze (log10 : ℚ → ℚ) (fftMag aWeight window : List ℚ → List ℚ)
    (fmt : ℕ → String) (cal cal_target : ℚ) (cal_fs : ℕ)
    (audio : List ℚ) (fs ndim : ℕ) : Except AnalyzerError AnalysisResult :=
  match validate_audio cal_fs audio.length fs ndim with
  | .error e => .error e
  | .ok _ =>
    let N := block_size
    let idx := find_greatest_energy audio N
    let x := (audio.drop idx).take N
    let x_a := aWeight x
    let res := one_third_octaves fftMag window fmt x_a
    .ok { audio := x
          bands := res.2.1
          energy := calibrateBands log10 cal cal_target N res.2.2
          xticks := res.1
          frame_idx := idx }

/-- Test metadata parsed from a filename by Analyzer.get_test_details
(analyzer.py lines 402-406). -/
structure TestDetails where
  testType : String
  date : String
  num : ℤ
  file : String
deriving Repr, DecidableEq

/-- Outcome of Analyzer.get_test_details.  printedFailure models the
except branch (analyzer.py lines 407-410): the parse failure is caught,
a message is printed, and the function returns the local variable test
which was never assigned, so the caller receives an incidental
UnboundLocalError rather than an explicit metadata parse failure. -/
inductive ParseOutcome where
  | ok (t : TestDetails)
  | printedFailure
deriving Repr, DecidableEq

/-- Removal of every occurrence of the substring .wav, the behaviour of
str.replace applied in get_test_details (analyzer.py line 400). -/
def stripWav : List Char → List Char
  | '.' :: 'w' :: 'a' :: 'v' :: rest => stripWav rest
  | c :: rest => c :: stripWav rest
  | [] => []

/-- Split on a separator character, the behaviour of str.split with an
explicit separator (analyzer.py line 401): the empty string yields one
empty token and adjacent separators yield empty tokens. -/
def splitOnChar (sep : Char) : List Char → List (List Char)
  | [] => [[]]
  | c :: rest =>
    match splitOnChar sep rest with
    | [] => [[c]]
    | g :: gs => if c = sep then [] :: g :: gs else (c :: g) :: gs

/-- Digit-string parsing, the core of Python int() (analyzer.py
line 405): every character must be a decimal digit and the string must
be nonempty. -/
def parseDigits (cs : List Char) : Option ℕ :=
  match cs with
  | [] => none
  | _ => cs.foldl
      (fun acc c =>
        match acc with
        | none => none
        | some n => if c.isDigit
            then some (n * 10 + (c.toNat - '0'.toNat)) else none)
      (some 0)

/-- Integer parsing with an optional leading minus sign, the behaviour
of Python int() on a token (analyzer.py line 405). -/
def parseIntChars (cs : List Char) : Option ℤ :=
  match cs with
  | '-' :: rest => (parseDigits rest).map (fun n => -(n : ℤ))
  | _ => (parseDigits cs).map (fun n => (n : ℤ))

/-- Analyzer.get_test_details (analyzer.py lines 377-410), on the base
name of the audio file: strip .wav, split on underscores, read the
type, date and integer index tokens.  A missing token or a
non-integer index token falls into the except branch. -/
def get_test_details (base : String) : ParseOutcome :=
  let filename := stripWav base.data
  let details := splitOnChar '_' filename
  match details.get? 0, details.get? 1, details.get? 2 with
  | some t, some d, some n =>
    match parseIntChars n with
    | some num => .ok ⟨⟨t⟩, ⟨d⟩, num, ⟨filename⟩⟩
    | none => .printedFailure
  | _, _, _ => .printedFailure

/-- One entry of the sound level requirements mapping: the 28 per-band
thresholds and the two band spec scalar (analyzer.py lines 283-284). -/
structure SpecEntry where
  bands : List ℚ
  twoBand : ℚ
deriving Repr, DecidableEq

/-- Mutable instance state of the Analyzer object relevant to per-file
analysis: cal and cal_target are set once by calibrate (lines 62 and
158), amb_analysis once in the constructor (line 63), while band_specs
and two_band_spec are assigned by run (lines 283-284). -/
structure AnalyzerState where
  cal : ℚ
  cal_target : ℚ
  amb_analysis : AnalysisResult
  band_specs : List ℚ
  two_band_spec : ℚ
deriving Repr, DecidableEq

/-- Analyzer.run (analyzer.py lines 270-292) as a state transformer:
parse the filename, look up the spec entry for the test type and store
it in the instance fields band_specs and two_band_spec, then analyze
the file.  Plot generation (line 292) only reads state and is out of
scope.  On a parse failure or an unknown test type the state is
returned unchanged (in the source those paths raise before the
assignments on lines 283-284). -/
def run (log10 : ℚ → ℚ) (fftMag aWeight window : List ℚ → List ℚ)
    (fmt : ℕ → String) (slr : String → Option SpecEntry) (cal_fs : ℕ)
    (s : AnalyzerState) (audio_file : String) (audio : List ℚ)
    (fs ndim : ℕ) : AnalyzerState × Except AnalyzerError AnalysisResult :=
  match get_test_details audio_file with
  | .printedFailure => (s, .error .metadataParseFailure)
  | .ok test =>
    match slr test.testType with
    | none => (s, .error .unknownTestType)
    | some entry =>
      let s' := { s with band_specs := entry.bands
                         two_band_spec := entry.twoBand }
      (s', analyze log10 fftMag aWeight window fmt s.cal s.cal_target
             cal_fs audio fs ndim)

/-- Modelled from the spec: the pass/fail comparison of the
LevelEvaluator (spec section 4.5) is not materialised in src, where the
measured levels, the per-band thresholds and the aggregate two-band
threshold are only juxtaposed in the rendered plots.  Per the spec, a
band passes iff measured is at most the spec threshold, and the
aggregate check compares the designated two-band combination against
the single aggregate threshold scalar. -/
def evaluateLevels (measured specs : List ℚ) (twoBand aggThreshold : ℚ) :
    List Bool × Bool :=
  (List.zipWith (fun mv sv => decide (mv ≤ sv)) measured specs,
   decide (twoBand ≤ aggThreshold))

/-- Concrete sound level requirements mapping used as a closed test
fixture. -/
def slrEx : String → Option SpecEntry :=
  fun t => if t = "stat" then some ⟨[1, 2, 3], 50⟩ else none

/-- Concrete analyzer state used as a closed test fixture. -/
def state0 : AnalyzerState :=
  { cal := 0
    cal_target := 0
    amb_analysis := ⟨[], [], [], [], 0⟩
    band_specs := []
    two_band_spec := 0 }

/-! ### Helper lemmas about list slices, sums and the first-argmax -/

theorem take_sum_getD (l : List ℚ) (n : ℕ) :
    (l.take n).sum = ∑ i in Finset.range n, l.getD i 0 := by
  induction l generalizing n with
  | nil => simp [List.getD]
  | cons x xs ih =>
    cases n with
    | zero => simp
    | succ m =>
      rw [List.take_succ_cons, List.sum_cons, ih, Finset.sum_range_succ']
      simp [List.getD_cons_succ, List.getD_cons_zero]
      ring

theorem drop_getD (l : List ℚ) (a i : ℕ) :
    (l.drop a).getD i 0 = l.getD (a + i) 0 := by
  induction l generalizing a with
  | nil => simp
  | cons x xs ih =>
    cases a with
    | zero => simp
    | succ b => simp [Nat.succ_add, ih b]

theorem slice_sum_Ico (l : List ℚ) (a n : ℕ) :
    ((l.drop a).take n).sum = ∑ i in Finset.Ico a (a + n), l.getD i 0 := by
  rw [take_sum_getD, Finset.sum_Ico_eq_sum_range]
  simp [drop_getD]

theorem getD_map_sq (l : List ℚ) (i : ℕ) :
    (l.map (fun v => v ^ 2)).getD i 0 = (l.getD i 0) ^ 2 := by
  induction l generalizing i with
  | nil => simp
  | cons x xs ih =>
    cases i with
    | zero => simp
    | succ j => simpa using ih j

theorem frameSumSq_eq_Ico (data : List ℚ) (hop N k : ℕ) :
    frameSumSq data hop N k
      = ∑ i in Finset.Ico (hop * k) (hop * k + N), (data.getD i 0) ^ 2 := by
  unfold frameSumSq
  rw [List.map_take, List.map_drop, slice_sum_Ico]
  exact Finset.sum_congr rfl (fun i _ => getD_map_sq data i)

theorem getD_map_range (f : ℕ → ℚ) (n i : ℕ) (h : i < n) :
    ((List.range n).map f).getD i 0 = f i := by
  have hlen : i < ((List.range n).map f).length := by simpa using h
  rw [List.getD_eq_getElem _ _ hlen]
  simp

theorem getD_nonneg {l : List ℚ} (h : ∀ v ∈ l, 0 ≤ v) (i : ℕ) :
    0 ≤ l.getD i 0 := by
  by_cases hi : i < l.length
  · rw [List.getD_eq_getElem _ _ hi]
    exact h _ (List.getElem_mem hi)
  · rw [List.getD_eq_default _ _ (le_of_not_lt hi)]

theorem getD_zero_of_len_le (l : List ℚ) (i : ℕ) (h : l.length ≤ i) :
    l.getD i 0 = 0 :=
  List.getD_eq_default _ _ h

theorem frameSumSq_nonneg (data : List ℚ) (hop N k : ℕ) :
    0 ≤ frameSumSq data hop N k := by
  unfold frameSumSq
  apply List.sum_nonneg
  intro v hv
  obtain ⟨w, _, rfl⟩ := List.mem_map.mp hv
  positivity

theorem frameMeanSq_nonneg (data : List ℚ) (hop N k : ℕ) :
    0 ≤ frameMeanSq data hop N k := by
  unfold frameMeanSq
  have := frameSumSq_nonneg data hop N k
  positivity

theorem argmaxFirst_cons_cons (x y : ℚ) (t : List ℚ) :
    argmaxFirst (x :: y :: t)
      = if x < (y :: t).getD (argmaxFirst (y :: t)) 0
        then argmaxFirst (y :: t) + 1 else 0 := rfl

theorem argmaxFirst_lt_length (l : List ℚ) (hl : l ≠ []) :
    argmaxFirst l < l.length := by
  induction l with
  | nil => exact absurd rfl hl
  | cons x xs ih =>
    cases xs with
    | nil => simp [argmaxFirst]
    | cons y t =>
      rw [argmaxFirst_cons_cons]
      by_cases h : x < (y :: t).getD (argmaxFirst (y :: t)) 0
      · rw [if_pos h]
        have := ih (by simp)
        simp only [List.length_cons] at this ⊢
        omega
      · rw [if_neg h]
        simp

theorem argmaxFirst_le (l : List ℚ) (i : ℕ) (hi : i < l.length) :
    l.getD i 0 ≤ l.getD (argmaxFirst l) 0 := by
  induction l generalizing i with
  | nil => simp at hi
  | cons x xs ih =>
    cases xs with
    | nil =>
      have h0 : i = 0 := by
        simp only [List.length_cons, List.length_nil] at hi
        omega
      subst h0
      simp [argmaxFirst]
    | cons y t =>
      rw [argmaxFirst_cons_cons]
      by_cases h : x < (y :: t).getD (argmaxFirst (y :: t)) 0
      · rw [if_pos h]
        cases i with
        | zero =>
          simpa [List.getD_cons_zero, List.getD_cons_succ] using le_of_lt h
        | succ j =>
          have hj : j < (y :: t).length := by
            simpa [Nat.succ_lt_succ_iff] using hi
          simpa [List.getD_cons_succ] using ih j hj
      · rw [if_neg h]
        push_neg at h
        cases i with
        | zero => simp
        | succ j =>
          have hj : j < (y :: t).length := by
            simpa [Nat.succ_lt_succ_iff] using hi
          have h2 := ih j hj
          simp only [List.getD_cons_succ, List.getD_cons_zero]
          exact le_trans h2 h

theorem argmaxFirst_first (l : List ℚ) (i : ℕ) (hi : i < argmaxFirst l) :
    l.getD i 0 < l.getD (argmaxFirst l) 0 := by
  induction l generalizing i with
  | nil => simp [argmaxFirst] at hi
  | cons x xs ih =>
    cases xs with
    | nil => simp [argmaxFirst] at hi
    | cons y t =>
      rw [argmaxFirst_cons_cons] at hi ⊢
      by_cases h : x < (y :: t).getD (argmaxFirst (y :: t)) 0
      · rw [if_pos h] at hi ⊢
        cases i with
        | zero =>
          simpa [List.getD_cons_zero, List.getD_cons_succ] using h
        | succ j =>
          have hj : j < argmaxFirst (y :: t) := by omega
          simpa [List.getD_cons_succ] using ih j hj
      · rw [if_neg h] at hi
        omega

/-! ### Band cursor invariants -/

theorem bandCursor_stop (k : ℕ) :
    (bandCursor k).stop = (bandCursor k).start + (bandCursor k).nbins := by
  induction k with
  | zero => rfl
  | succ i ih =>
    simp only [bandCursor]
    omega

theorem bandCursor_nbins_ge (k : ℕ) : 3 ≤ (bandCursor k).nbins := by
  induction k with
  | zero => decide
  | succ i ih =>
    simp only [bandCursor]
    omega

theorem bandEnergies_getD (m : List ℚ) (k : ℕ) (hk : k < 28) :
    (bandEnergies m).getD k 0
      = ∑ i in Finset.Ico (bandCursor k).start (bandCursor k).stop,
          m.getD i 0 := by
  unfold bandEnergies
  rw [getD_map_range _ _ _ hk, slice_sum_Ico]
  have h := bandCursor_stop k
  have hle : (bandCursor k).start ≤ (bandCursor k).stop := by omega
  rw [Nat.add_sub_cancel' hle]

/-! ### Claim theorems -/

/-- Claim C1: for every magnitude spectrum with at least 5000 bins, the
band-grouping recurrence (step initialised to 1, first band starting at
bin 13 with width 3, start advanced by the width, width advanced by the
step, step doubling after every band whose 0-based index is congruent
to 2 mod 3) assigns the 28 bands bin ranges whose first six are exactly
[13,16), [16,20), [20,25), [25,31), [31,39), [39,49), successive widths
3, 4, 5, 6, 8, 10, with the step doubling to 2 immediately after band
index 2, and each band energy is the sum of the spectrum magnitudes
over the bins of its range, bins beyond the end of the spectrum
contributing nothing exactly as in Python slicing. -/
theorem band_grouping_recurrence_ranges (m : List ℚ) (_hm : 5000 ≤ m.length) :
    (bandEnergies m).length = 28
    ∧ ((List.range 6).map (fun k => ((bandCursor k).start, (bandCursor k).stop))
        = [(13, 16), (16, 20), (20, 25), (25, 31), (31, 39), (39, 49)])
    ∧ ((List.range 6).map (fun k => (bandCursor k).nbins) = [3, 4, 5, 6, 8, 10])
    ∧ (bandCursor 2).step = 1
    ∧ (bandCursor 3).step = 2
    ∧ (∀ k, k % 3 = 2 → (bandCursor (k + 1)).step = (bandCursor k).step * 2)
    ∧ (∀ k, k < 28 → (bandEnergies m).getD k 0
        = ∑ i in Finset.Ico (bandCursor k).start (bandCursor k).stop,
            m.getD i 0) := by
  refine ⟨by simp [bandEnergies], by decide, by decide, by decide, by decide,
    ?_, ?_⟩
  · intro k hk
    have h3 : (k + 1) % 3 = 0 := by omega
    simp [bandCursor, h3]
  · intro k hk
    exact bandEnergies_getD m k hk

/-- Witness for C1: the hypothesis is discharged at a concrete spectrum of
5000 zero bins and the band-0 energy identity is instantiated. -/
theorem band_grouping_recurrence_ranges_witness :
    5000 ≤ (List.replicate 5000 (0 : ℚ)).length
    ∧ (bandEnergies (List.replicate 5000 (0 : ℚ))).getD 0 0
        = ∑ i in Finset.Ico (bandCursor 0).start (bandCursor 0).stop,
            (List.replicate 5000 (0 : ℚ)).getD i 0 := by
  have h : 5000 ≤ (List.replicate 5000 (0 : ℚ)).length := by
    rw [List.length_replicate]
  exact ⟨h,
    (band_grouping_recurrence_ranges _ h).2.2.2.2.2.2 0 (by norm_num)⟩

/-- Claim C2: the band bin ranges are monotonically increasing,
contiguous and non-overlapping - for every k, the stop bin of band k
equals the start bin of band k+1 - and the band widths are
non-decreasing; this holds for every band index, in particular for the
28 bands produced. -/
theorem band_table_invariants :
    (∀ k, (bandCursor (k + 1)).start = (bandCursor k).stop)
    ∧ (∀ k, (bandCursor k).nbins ≤ (bandCursor (k + 1)).nbins)
    ∧ (∀ k, (bandCursor k).start < (bandCursor (k + 1)).start)
    ∧ (∀ k, (bandCursor k).start < (bandCursor k).stop) := by
  refine ⟨?_, ?_, ?_, ?_⟩
  · intro k
    have h := bandCursor_stop k
    simp only [bandCursor]
    omega
  · intro k
    simp only [bandCursor]
    omega
  · intro k
    have h := bandCursor_nbins_ge k
    simp only [bandCursor]
    omega
  · intro k
    have h := bandCursor_stop k
    have h2 := bandCursor_nbins_ge k
    omega

theorem take_map_sq_sum (mm : List ℚ) (n : ℕ) :
    ((mm.take n).map (fun v => v ^ 2)).sum
      = ∑ i in Finset.range n, (mm.getD i 0) ^ 2 := by
  rw [List.map_take, take_sum_getD]
  exact Finset.sum_congr rfl (fun i _ => getD_map_sq mm i)

/-- Claim C3: the calibration measured level equals
20*log10((2/N) * sum of squared spectrum magnitudes) over the selected,
A-weighted, Blackman-Harris-windowed calibration frame - a sum of
squared magnitudes - whereas each per-band energy in the measurement
path is a sum of un-squared magnitudes, and the additive calibration
offset equals target_level_db - measured_level_db. -/
theorem calibration_power_sum_vs_band_magnitude_sum
    (log10 : ℚ → ℚ) (fftMag aWeight window : List ℚ → List ℚ)
    (audio : List ℚ) (N : ℕ) (target : ℚ) (m : List ℚ) (k : ℕ)
    (hk : k < 28) :
    calibrate log10 fftMag aWeight window audio N
      = 20 * log10 ((2 / (N : ℚ)) * ∑ i in Finset.range (N / 2),
          ((fftMag (window (aWeight
            ((audio.drop (find_greatest_energy audio N)).take N)))).getD i 0)
            ^ 2)
    ∧ (bandEnergies m).getD k 0
        = ∑ i in Finset.Ico (bandCursor k).start (bandCursor k).stop,
            m.getD i 0
    ∧ offset_db ⟨target, calibrate log10 fftMag aWeight window audio N⟩
        = target - calibrate log10 fftMag aWeight window audio N := by
  refine ⟨?_, bandEnergies_getD m k hk, rfl⟩
  simp only [calibrate]
  rw [take_map_sq_sum]

/-- Witness for C3, instantiated at a concrete calibration input. -/
theorem calibration_power_sum_vs_band_magnitude_sum_witness :
    (0 : ℕ) < 28
    ∧ offset_db ⟨(94 : ℚ),
        calibrate (fun q => q) (fun l => l) (fun l => l) (fun l => l)
          [1, 0, 0, 0] 4⟩
      = 94 - calibrate (fun q => q) (fun l => l) (fun l => l) (fun l => l)
          [1, 0, 0, 0] 4 := by
  exact ⟨by norm_num,
    (calibration_power_sum_vs_band_magnitude_sum (fun q => q) (fun l => l)
      (fun l => l) (fun l => l) [1, 0, 0, 0] 4 94 [] 0 (by norm_num)).2.2⟩

theorem zipWith_getD (f : ℚ → ℚ → Bool) (a b : List ℚ) (k : ℕ)
    (ha : k < a.length) (hb : k < b.length) :
    (List.zipWith f a b).getD k false = f (a.getD k 0) (b.getD k 0) := by
  induction a generalizing b k with
  | nil => simp at ha
  | cons x xs ih =>
    cases b with
    | nil => simp at hb
    | cons y ys =>
      cases k with
      | zero => simp
      | succ j =>
        have ha' : j < xs.length := by
          simpa [Nat.succ_lt_succ_iff] using ha
        have hb' : j < ys.length := by
          simpa [Nat.succ_lt_succ_iff] using hb
        simpa using ih ys j ha' hb'

theorem calibrateBands_getD (log10 : ℚ → ℚ) (cal cal_target : ℚ) (N : ℕ)
    (raw : List ℚ) (k : ℕ) (hk : k < raw.length) :
    (calibrateBands log10 cal cal_target N raw).getD k 0
      = 20 * log10 ((2 / (N : ℚ)) * |raw.getD k 0|) + (cal_target - cal) := by
  unfold calibrateBands
  have hk2 : k < (raw.map
      (fun e => 20 * log10 ((2 / (N : ℚ)) * |e|) + (cal_target - cal))).length := by
    simpa using hk
  rw [List.getD_eq_getElem _ _ hk2]
  simp only [List.getElem_map]
  rw [List.getD_eq_getElem _ _ hk]

/-- Claim C4: given an analysis result, a calibration profile and spec
thresholds, the evaluation path produces a calibrated dB-SPL value per
band - the raw band energy scaled by 2/N, taken through 20*log10 and
shifted by the additive calibration offset - plus a pass/fail
determination per band, measured at most spec, and an aggregate check
of the designated two-band combination against the single aggregate
threshold scalar.  The comparisons are the spec-modelled evaluateLevels
since src only renders them. -/
theorem evaluation_path_calibration_and_passfail
    (log10 : ℚ → ℚ) (cal cal_target : ℚ) (N : ℕ) (raw specs : List ℚ)
    (twoBand aggThreshold : ℚ) (k : ℕ)
    (hk : k < raw.length) (hs : k < specs.length) :
    (calibrateBands log10 cal cal_target N raw).getD k 0
      = 20 * log10 ((2 / (N : ℚ)) * |raw.getD k 0|)
        + offset_db ⟨cal_target, cal⟩
    ∧ ((evaluateLevels (calibrateBands log10 cal cal_target N raw) specs
          twoBand aggThreshold).1.getD k false = true
        ↔ (calibrateBands log10 cal cal_target N raw).getD k 0
            ≤ specs.getD k 0)
    ∧ ((evaluateLevels (calibrateBands log10 cal cal_target N raw) specs
          twoBand aggThreshold).2 = true ↔ twoBand ≤ aggThreshold) := by
  refine ⟨calibrateBands_getD log10 cal cal_target N raw k hk, ?_,
    by simp [evaluateLevels]⟩
  unfold evaluateLevels
  rw [zipWith_getD _ _ _ _ (by simpa [calibrateBands] using hk) hs]
  simp

/-- Witness for C4, instantiated at a one-band spec table. -/
theorem evaluation_path_calibration_and_passfail_witness :
    (0 : ℕ) < ([(1 : ℚ)]).length
    ∧ (0 : ℕ) < ([(2 : ℚ)]).length
    ∧ ((evaluateLevels (calibrateBands (fun q => q) 0 0 4 [1]) [2] 1 3).2
          = true ↔ (1 : ℚ) ≤ 3) := by
  exact ⟨by norm_num, by norm_num,
    (evaluation_path_calibration_and_passfail (fun q => q) 0 0 4 [1] [2] 1 3
      0 (by norm_num) (by norm_num)).2.2⟩

/-- Claim C5: for every signal of length at least N, the frame selector
examines exactly floor(len/N)*4 frames at hop N/4, and returns hop times
the index of the frame of greatest RMS, the RMS of a frame being the
square root of its mean of squared samples (sum divided by the nominal
frame length N, samples beyond the signal end contributing nothing, as
the source divides by frame_size), ties resolving to the first, lowest
offset, occurrence; the result is a function of the input, hence
deterministic across repeated runs. -/
theorem frame_selector_stable_argmax
    (data : List ℚ) (N : ℕ) (h0 : 0 < N) (hlen : N ≤ data.length) :
    ∃ k : ℕ,
      find_greatest_energy data N = (N / 4) * k
      ∧ k < (data.length / N) * 4
      ∧ (∀ j, j < (data.length / N) * 4 →
          Real.sqrt ((frameMeanSq data (N / 4) N j : ℚ) : ℝ)
            ≤ Real.sqrt ((frameMeanSq data (N / 4) N k : ℚ) : ℝ))
      ∧ (∀ j, j < k →
          Real.sqrt ((frameMeanSq data (N / 4) N j : ℚ) : ℝ)
            < Real.sqrt ((frameMeanSq data (N / 4) N k : ℚ) : ℝ)) := by
  have h1 : 1 ≤ data.length / N := (Nat.one_le_div_iff h0).mpr hlen
  have hne : (List.range ((data.length / N) * 4)).map
      (frameMeanSq data (N / 4) N) ≠ [] := by
    intro hcontra
    have hlen0 := congrArg List.length hcontra
    simp only [List.length_map, List.length_range, List.length_nil] at hlen0
    omega
  have hklt : argmaxFirst ((List.range ((data.length / N) * 4)).map
      (frameMeanSq data (N / 4) N)) < (data.length / N) * 4 := by
    have h := argmaxFirst_lt_length _ hne
    simpa using h
  refine ⟨argmaxFirst ((List.range ((data.length / N) * 4)).map
    (frameMeanSq data (N / 4) N)), rfl, hklt, ?_, ?_⟩
  · intro j hj
    have hjlen : j < ((List.range ((data.length / N) * 4)).map
        (frameMeanSq data (N / 4) N)).length := by simpa using hj
    have hle := argmaxFirst_le _ j hjlen
    rw [getD_map_range _ _ _ hj, getD_map_range _ _ _ hklt] at hle
    exact Real.sqrt_le_sqrt (by exact_mod_cast hle)
  · intro j hj
    have hjlt : j < (data.length / N) * 4 := lt_trans hj hklt
    have hlt := argmaxFirst_first _ j hj
    rw [getD_map_range _ _ _ hjlt, getD_map_range _ _ _ hklt] at hlt
    have hnn : (0 : ℝ) ≤ ((frameMeanSq data (N / 4) N j : ℚ) : ℝ) := by
      exact_mod_cast frameMeanSq_nonneg data (N / 4) N j
    exact Real.sqrt_lt_sqrt hnn (by exact_mod_cast hlt)

/-- Witness for C5 at a concrete four-sample signal. -/
theorem frame_selector_stable_argmax_witness :
    0 < 4 ∧ 4 ≤ ([(1 : ℚ), 0, 0, 0]).length
    ∧ ∃ k : ℕ,
        find_greatest_energy [(1 : ℚ), 0, 0, 0] 4 = (4 / 4) * k
        ∧ k < (([(1 : ℚ), 0, 0, 0]).length / 4) * 4
        ∧ (∀ j, j < (([(1 : ℚ), 0, 0, 0]).length / 4) * 4 →
            Real.sqrt ((frameMeanSq [(1 : ℚ), 0, 0, 0] (4 / 4) 4 j : ℚ) : ℝ)
              ≤ Real.sqrt ((frameMeanSq [(1 : ℚ), 0, 0, 0] (4 / 4) 4 k : ℚ) : ℝ))
        ∧ (∀ j, j < k →
            Real.sqrt ((frameMeanSq [(1 : ℚ), 0, 0, 0] (4 / 4) 4 j : ℚ) : ℝ)
              < Real.sqrt ((frameMeanSq [(1 : ℚ), 0, 0, 0] (4 / 4) 4 k : ℚ) : ℝ)) := by
  exact ⟨by norm_num, by norm_num,
    frame_selector_stable_argmax [(1 : ℚ), 0, 0, 0] 4 (by norm_num)
      (by norm_num)⟩

/-- Claim C6: validation runs before any analysis work begins - a
validation error is returned by analyze untouched, before the frame
search or any spectral work - and a too-short signal, a wrong sample
rate and a multi-channel signal each produce their own distinct error
kind: invalidAudioLength, invalidSampleRate and invalidChannelCount
respectively, not a generic failure. -/
theorem validation_distinct_error_kinds
    (log10 : ℚ → ℚ) (fftMag aWeight window : List ℚ → List ℚ)
    (fmt : ℕ → String) (cal cal_target : ℚ) (cal_fs : ℕ)
    (audio : List ℚ) (fs ndim : ℕ) :
    (audio.length < block_size →
      analyze log10 fftMag aWeight window fmt cal cal_target cal_fs audio fs
        ndim = .error .invalidAudioLength)
    ∧ (block_size ≤ audio.length → fs ≠ cal_fs →
      analyze log10 fftMag aWeight window fmt cal cal_target cal_fs audio fs
        ndim = .error .invalidSampleRate)
    ∧ (block_size ≤ audio.length → fs = cal_fs → 1 < ndim →
      analyze log10 fftMag aWeight window fmt cal cal_target cal_fs audio fs
        ndim = .error .invalidChannelCount)
    ∧ (∀ e, validate_audio cal_fs audio.length fs ndim = .error e →
      analyze log10 fftMag aWeight window fmt cal cal_target cal_fs audio fs
        ndim = .error e)
    ∧ (AnalyzerError.invalidAudioLength ≠ AnalyzerError.invalidSampleRate
       ∧ AnalyzerError.invalidAudioLength ≠ AnalyzerError.invalidChannelCount
       ∧ AnalyzerError.invalidSampleRate ≠ AnalyzerError.invalidChannelCount)
    := by
  have hprop : ∀ e, validate_audio cal_fs audio.length fs ndim = .error e →
      analyze log10 fftMag aWeight window fmt cal cal_target cal_fs audio fs
        ndim = .error e := by
    intro e he
    unfold analyze
    rw [he]
  refine ⟨?_, ?_, ?_, hprop, by decide⟩
  · intro h
    apply hprop
    unfold validate_audio
    rw [if_pos h]
  · intro h1 h2
    apply hprop
    unfold validate_audio
    rw [if_neg (not_lt.mpr h1), if_pos h2]
  · intro h1 h2 h3
    apply hprop
    unfold validate_audio
    rw [if_neg (not_lt.mpr h1), if_neg (by simp [h2]), if_pos h3]

/-- Witness for C6 at concrete malformed inputs: an empty signal, a
full-length signal at the wrong rate, and a full-length two-channel
signal. -/
theorem validation_distinct_error_kinds_witness :
    ([] : List ℚ).length < block_size
    ∧ analyze (fun q => q) (fun l => l) (fun l => l) (fun l => l)
        (fun _ => "") 0 0 48000 [] 48000 1 = .error .invalidAudioLength
    ∧ block_size ≤ (List.replicate 65536 (0 : ℚ)).length
    ∧ (48001 : ℕ) ≠ 48000
    ∧ analyze (fun q => q) (fun l => l) (fun l => l) (fun l => l)
        (fun _ => "") 0 0 48000 (List.replicate 65536 (0 : ℚ)) 48001 1
        = .error .invalidSampleRate
    ∧ analyze (fun q => q) (fun l => l) (fun l => l) (fun l => l)
        (fun _ => "") 0 0 48000 (List.replicate 65536 (0 : ℚ)) 48000 2
        = .error .invalidChannelCount := by
  have h1 : ([] : List ℚ).length < block_size := by simp [block_size]
  have h2 : block_size ≤ (List.replicate 65536 (0 : ℚ)).length := by
    rw [List.length_replicate]
    exact le_refl _
  exact ⟨h1,
    (validation_distinct_error_kinds (fun q => q) (fun l => l) (fun l => l)
      (fun l => l) (fun _ => "") 0 0 48000 [] 48000 1).1 h1,
    h2, by norm_num,
    (validation_distinct_error_kinds (fun q => q) (fun l => l) (fun l => l)
      (fun l => l) (fun _ => "") 0 0 48000 (List.replicate 65536 (0 : ℚ))
      48001 1).2.1 h2 (by norm_num),
    (validation_distinct_error_kinds (fun q => q) (fun l => l) (fun l => l)
      (fun l => l) (fun _ => "") 0 0 48000 (List.replicate 65536 (0 : ℚ))
      48000 2).2.2.1 h2 rfl (by norm_num)⟩

/-- Claim C7 (code bug evidence): on a filename that does not conform
to the type_date_index token convention - one with too few tokens, or
with a non-integer index - get_test_details lands in the except branch,
which prints a message and returns the never-assigned local record
(modelled by printedFailure, surfacing only as an incidental
UnboundLocalError): the parse failure is swallowed rather than surfaced
as an explicit metadata parse failure.  A conforming filename parses
fully, and run turns the swallowed branch into the loss of that file
without an explicit parse-failure value in the source. -/
theorem metadata_parse_swallowed_on_bad_filename :
    get_test_details "badname.wav" = ParseOutcome.printedFailure
    ∧ get_test_details "stat_2020_x.wav" = ParseOutcome.printedFailure
    ∧ get_test_details "stat_2020_1.wav"
        = ParseOutcome.ok ⟨"stat", "2020", 1, "stat_2020_1"⟩
    ∧ (run (fun q => q) (fun l => l) (fun l => l) (fun l => l) (fun _ => "")
        slrEx 48000 state0 "badname.wav" [] 48000 1).2
        = Except.error AnalyzerError.metadataParseFailure := by
  exact ⟨by decide, by decide, by decide, by rfl⟩

theorem mem_slice_subset {l : List ℚ} {a n : ℕ} {v : ℚ}
    (hv : v ∈ (l.drop a).take n) : v ∈ l :=
  List.mem_of_mem_drop (List.mem_of_mem_take hv)

/-- Counterexample for C8: at a concrete input the label list returned
by one_third_octaves has 13 entries, not one for each of the 28 bands
as the claim states. -/
theorem one_third_octaves_label_count_counterexample :
    ((one_third_octaves (fun _ => []) (fun l => l) (fun _ => "") []).1).length
      ≠ 28 := by
  decide

/-- Claim C8 (amended): for every input frame the band analysis returns
exactly 28 non-negative energy values (non-negative whenever the
magnitude spectrum entries are non-negative, which holds for np.abs
outputs), one per ANSI band number 10 through 37 in band order, but the
returned label sequence holds the nominal-frequency labels of only the
last 13 bands, indices 15 through 27, the first 15 labels being dropped
by the slice [15:]. -/
theorem one_third_octaves_shape
    (fftMag window : List ℚ → List ℚ) (fmt : ℕ → String) (x : List ℚ)
    (hm : ∀ v ∈ fftMag (window x), (0 : ℚ) ≤ v) :
    (one_third_octaves fftMag window fmt x).2.1
        = (List.range 28).map (fun i => 10 + i)
    ∧ (one_third_octaves fftMag window fmt x).2.1.length = 28
    ∧ (one_third_octaves fftMag window fmt x).2.2.length = 28
    ∧ (∀ e ∈ (one_third_octaves fftMag window fmt x).2.2, 0 ≤ e)
    ∧ (one_third_octaves fftMag window fmt x).1.length = 13
    ∧ (one_third_octaves fftMag window fmt x).1
        = (((one_third_octaves fftMag window fmt x).2.1).map fmt).drop 15
    := by
  refine ⟨rfl, by simp [one_third_octaves],
    by simp [one_third_octaves, bandEnergies], ?_,
    by simp [one_third_octaves], rfl⟩
  intro e he
  simp only [one_third_octaves, bandEnergies] at he
  obtain ⟨k, _, rfl⟩ := List.mem_map.mp he
  apply List.sum_nonneg
  intro v hv
  have hv1 : v ∈ (fftMag (window x)).take (x.length / 2) :=
    mem_slice_subset hv
  exact hm v (List.mem_of_mem_take hv1)

/-- Witness for C8 at a concrete trivial spectrum. -/
theorem one_third_octaves_shape_witness :
    (∀ v ∈ ([] : List ℚ), (0 : ℚ) ≤ v)
    ∧ (one_third_octaves (fun _ => ([] : List ℚ)) (fun l => l) (fun _ => "")
        []).1.length = 13 := by
  have h : ∀ v ∈ ([] : List ℚ), (0 : ℚ) ≤ v := by simp
  exact ⟨h,
    (one_third_octaves_shape (fun _ => ([] : List ℚ)) (fun l => l)
      (fun _ => "") [] h).2.2.2.2.1⟩

/-- Claim C9 (amended): every per-file analysis call leaves the
calibration values cal and cal_target and the ambient analysis result
amb_analysis unchanged after their one-time construction - analyze
reads but never writes instance state - while run does write the shared
instance fields band_specs and two_band_spec on each call that reaches
the spec lookup. -/
theorem run_preserves_calibration_state
    (log10 : ℚ → ℚ) (fftMag aWeight window : List ℚ → List ℚ)
    (fmt : ℕ → String) (slr : String → Option SpecEntry) (cal_fs : ℕ)
    (s : AnalyzerState) (audio_file : String) (audio : List ℚ)
    (fs ndim : ℕ) :
    (run log10 fftMag aWeight window fmt slr cal_fs s audio_file audio fs
        ndim).1.cal = s.cal
    ∧ (run log10 fftMag aWeight window fmt slr cal_fs s audio_file audio fs
        ndim).1.cal_target = s.cal_target
    ∧ (run log10 fftMag aWeight window fmt slr cal_fs s audio_file audio fs
        ndim).1.amb_analysis = s.amb_analysis := by
  unfold run
  cases hget : get_test_details audio_file with
  | printedFailure => simp [hget]
  | ok t =>
    cases hslr : slr t.testType with
    | none => simp [hget, hslr]
    | some entry => simp [hget, hslr]

/-- Counterexample for C9: a concrete per-file run call mutates the
shared instance fields band_specs and two_band_spec. -/
theorem run_mutates_band_specs :
    (run (fun q => q) (fun l => l) (fun l => l) (fun l => l) (fun _ => "")
        slrEx 48000 state0 "stat_2020_1.wav" [] 48000 1).1.band_specs
      ≠ state0.band_specs
    ∧ (run (fun q => q) (fun l => l) (fun l => l) (fun l => l) (fun _ => "")
        slrEx 48000 state0 "stat_2020_1.wav" [] 48000 1).1.two_band_spec
      ≠ state0.two_band_spec := by
  exact ⟨by decide, by decide⟩

theorem sum_Ico_sq_zero_tail (data : List ℚ) (a b : ℕ)
    (h : data.length ≤ a) :
    ∑ i in Finset.Ico a b, (data.getD i 0) ^ 2 = 0 := by
  apply Finset.sum_eq_zero
  intro i hi
  have hlen : data.length ≤ i := le_trans h (Finset.mem_Ico.mp hi).1
  rw [getD_zero_of_len_le data i hlen]
  ring

theorem frameSumSq_le_covering (data : List ℚ) (hop N j k : ℕ)
    (hjk : hop * j ≤ hop * k) (hcover : data.length ≤ hop * j + N) :
    frameSumSq data hop N k ≤ frameSumSq data hop N j := by
  rw [frameSumSq_eq_Ico, frameSumSq_eq_Ico]
  by_cases hcase : hop * k ≤ hop * j + N
  · have hsplit := Finset.sum_Ico_consecutive
      (f := fun i => (data.getD i 0) ^ 2) hcase
      (by omega : hop * j + N ≤ hop * k + N)
    rw [← hsplit, sum_Ico_sq_zero_tail data _ _ hcover, add_zero]
    apply Finset.sum_le_sum_of_subset_of_nonneg
    · exact Finset.Ico_subset_Ico hjk (le_refl _)
    · intro i _ _
      positivity
  · rw [sum_Ico_sq_zero_tail data _ _ (by omega)]
    apply Finset.sum_nonneg
    intro i _
    positivity

theorem frameMeanSq_le_covering (data : List ℚ) (hop N j k : ℕ)
    (hjk : hop * j ≤ hop * k) (hcover : data.length ≤ hop * j + N) :
    frameMeanSq data hop N k ≤ frameMeanSq data hop N j := by
  unfold frameMeanSq
  apply mul_le_mul_of_nonneg_left
    (frameSumSq_le_covering data hop N j k hjk hcover)
  positivity

theorem find_exact_multiple_no_truncation (data : List ℚ) (N m : ℕ)
    (h0 : 0 < N) (hdvd : 4 ∣ N) (hm : 1 ≤ m) (hlen : data.length = m * N) :
    find_greatest_energy data N + N ≤ data.length := by
  have hopmul : N / 4 * 4 = N := Nat.div_mul_cancel hdvd
  have hframes : (data.length / N) * 4 = m * 4 := by
    rw [hlen, Nat.mul_div_cancel _ h0]
  have hm1 : (m - 1) * N + N = m * N := by
    cases m with
    | zero => exact absurd hm (by omega)
    | succ mm =>
      simp only [Nat.succ_sub_one]
      ring
  have hj : (N / 4) * ((m - 1) * 4) = (m - 1) * N := by
    calc (N / 4) * ((m - 1) * 4) = (m - 1) * (N / 4 * 4) := by ring
      _ = (m - 1) * N := by rw [hopmul]
  have hvlen : ((List.range ((data.length / N) * 4)).map
      (frameMeanSq data (N / 4) N)).length = m * 4 := by
    simp [hframes]
  have hne : (List.range ((data.length / N) * 4)).map
      (frameMeanSq data (N / 4) N) ≠ [] := by
    intro hc
    rw [hc] at hvlen
    simp at hvlen
    omega
  have hklt : argmaxFirst ((List.range ((data.length / N) * 4)).map
      (frameMeanSq data (N / 4) N)) < m * 4 := by
    have h := argmaxFirst_lt_length _ hne
    rw [hvlen] at h
    exact h
  have hfind : find_greatest_energy data N
      = (N / 4) * argmaxFirst ((List.range ((data.length / N) * 4)).map
          (frameMeanSq data (N / 4) N)) := rfl
  have hmain : argmaxFirst ((List.range ((data.length / N) * 4)).map
      (frameMeanSq data (N / 4) N)) ≤ (m - 1) * 4 := by
    by_contra hcon
    push_neg at hcon
    have hcover : data.length ≤ (N / 4) * ((m - 1) * 4) + N := by
      rw [hj, hlen, hm1]
    have hjk : (N / 4) * ((m - 1) * 4)
        ≤ (N / 4) * argmaxFirst ((List.range ((data.length / N) * 4)).map
            (frameMeanSq data (N / 4) N)) :=
      Nat.mul_le_mul_left _ (le_of_lt hcon)
    have hle := frameMeanSq_le_covering data (N / 4) N ((m - 1) * 4)
      (argmaxFirst ((List.range ((data.length / N) * 4)).map
        (frameMeanSq data (N / 4) N))) hjk hcover
    have hlt := argmaxFirst_first ((List.range ((data.length / N) * 4)).map
      (frameMeanSq data (N / 4) N)) ((m - 1) * 4) hcon
    have hidx1 : (m - 1) * 4 < (data.length / N) * 4 := by
      rw [hframes]
      omega
    have hidx2 : argmaxFirst ((List.range ((data.length / N) * 4)).map
        (frameMeanSq data (N / 4) N)) < (data.length / N) * 4 :=
      lt_of_lt_of_eq hklt hframes.symm
    rw [getD_map_range _ _ _ hidx1, getD_map_range _ _ _ hidx2] at hlt
    exact absurd hle (not_le.mpr hlt)
  have hfin : (N / 4) * argmaxFirst ((List.range ((data.length / N) * 4)).map
      (frameMeanSq data (N / 4) N)) ≤ (m - 1) * N := by
    rw [← hj]
    exact Nat.mul_le_mul_left _ hmain
  rw [hlen, hfind]
  have hstep := Nat.add_le_add_right hfin N
  rw [hm1] at hstep
  exact hstep

/-- Counterexample for C10: a concrete 16-sample signal with N = 8 (an
exact multiple, hop 2, 8 candidate frames) in which a maximal-energy
frame, index 5, is among the last three candidates (indices 5, 6, 7),
yet the returned offset is not truncating: offset + N is not greater
than the signal length and the extracted slice has the full N samples.
Maximality is stated on the mean square, which orders frames exactly as
their RMS since the square root is strictly monotone on nonnegative
values. -/
theorem frame_selector_exact_multiple_scenario_counterexample :
    ([(0 : ℚ), 0, 0, 0, 0, 0, 0, 0, 0, 0, 0, 0, 1, 1, 1, 1]).length = 2 * 8
    ∧ frameMeanSq [(0 : ℚ), 0, 0, 0, 0, 0, 0, 0, 0, 0, 0, 0, 1, 1, 1, 1] 2 8 0
        ≤ frameMeanSq [(0 : ℚ), 0, 0, 0, 0, 0, 0, 0, 0, 0, 0, 0, 1, 1, 1, 1]
          2 8 5
    ∧ frameMeanSq [(0 : ℚ), 0, 0, 0, 0, 0, 0, 0, 0, 0, 0, 0, 1, 1, 1, 1] 2 8 1
        ≤ frameMeanSq [(0 : ℚ), 0, 0, 0, 0, 0, 0, 0, 0, 0, 0, 0, 1, 1, 1, 1]
          2 8 5
    ∧ frameMeanSq [(0 : ℚ), 0, 0, 0, 0, 0, 0, 0, 0, 0, 0, 0, 1, 1, 1, 1] 2 8 2
        ≤ frameMeanSq [(0 : ℚ), 0, 0, 0, 0, 0, 0, 0, 0, 0, 0, 0, 1, 1, 1, 1]
          2 8 5
    ∧ frameMeanSq [(0 : ℚ), 0, 0, 0, 0, 0, 0, 0, 0, 0, 0, 0, 1, 1, 1, 1] 2 8 3
        ≤ frameMeanSq [(0 : ℚ), 0, 0, 0, 0, 0, 0, 0, 0, 0, 0, 0, 1, 1, 1, 1]
          2 8 5
    ∧ frameMeanSq [(0 : ℚ), 0, 0, 0, 0, 0, 0, 0, 0, 0, 0, 0, 1, 1, 1, 1] 2 8 4
        ≤ frameMeanSq [(0 : ℚ), 0, 0, 0, 0, 0, 0, 0, 0, 0, 0, 0, 1, 1, 1, 1]
          2 8 5
    ∧ frameMeanSq [(0 : ℚ), 0, 0, 0, 0, 0, 0, 0, 0, 0, 0, 0, 1, 1, 1, 1] 2 8 6
        ≤ frameMeanSq [(0 : ℚ), 0, 0, 0, 0, 0, 0, 0, 0, 0, 0, 0, 1, 1, 1, 1]
          2 8 5
    ∧ frameMeanSq [(0 : ℚ), 0, 0, 0, 0, 0, 0, 0, 0, 0, 0, 0, 1, 1, 1, 1] 2 8 7
        ≤ frameMeanSq [(0 : ℚ), 0, 0, 0, 0, 0, 0, 0, 0, 0, 0, 0, 1, 1, 1, 1]
          2 8 5
    ∧ 5 < 8 ∧ (8 : ℕ) - 3 ≤ 5
    ∧ ¬ (([(0 : ℚ), 0, 0, 0, 0, 0, 0, 0, 0, 0, 0, 0, 1, 1, 1, 1]).length
        < find_greatest_energy
            [(0 : ℚ), 0, 0, 0, 0, 0, 0, 0, 0, 0, 0, 0, 1, 1, 1, 1] 8 + 8)
    ∧ ((([(0 : ℚ), 0, 0, 0, 0, 0, 0, 0, 0, 0, 0, 0, 1, 1, 1, 1]).drop
        (find_greatest_energy
          [(0 : ℚ), 0, 0, 0, 0, 0, 0, 0, 0, 0, 0, 0, 1, 1, 1, 1] 8)).take
        8).length = 8 := by
  refine ⟨by decide, ?_, ?_, ?_, ?_, ?_, ?_, ?_, by decide, by decide,
    ?_, ?_⟩
  case _ => norm_num [frameMeanSq, frameSumSq]
  case _ => norm_num [frameMeanSq, frameSumSq]
  case _ => norm_num [frameMeanSq, frameSumSq]
  case _ => norm_num [frameMeanSq, frameSumSq]
  case _ => norm_num [frameMeanSq, frameSumSq]
  case _ => norm_num [frameMeanSq, frameSumSq]
  case _ => norm_num [frameMeanSq, frameSumSq]
  case _ => norm_num [find_greatest_energy, argmaxFirst, frameMeanSq,
    frameSumSq, List.range_succ]
  case _ => norm_num [find_greatest_energy, argmaxFirst, frameMeanSq,
    frameSumSq, List.range_succ]

/-- Claim C10 (amended): the frame selector returns (N/4)*k with
k at most 4*floor(len/N) - 1, and this bound does permit
offset + N > len with a silently truncated slice - realised for example
by a 9-sample signal with N = 8 whose energy sits at the tail - but not
in the exact-multiple scenario: when len is an exact multiple of N,
with 4 dividing N as at both call sites (8192 and 65536), every
truncated candidate window is contained in the last full frame, so the
first-occurrence argmax never selects past it and the returned offset
satisfies offset + N at most len. -/
theorem frame_selector_offset_bound_and_truncation :
    (∀ (data : List ℚ) (N : ℕ), 0 < N → N ≤ data.length →
      ∃ k, k ≤ (data.length / N) * 4 - 1
        ∧ find_greatest_energy data N = (N / 4) * k)
    ∧ (find_greatest_energy [(0 : ℚ), 0, 0, 0, 0, 0, 0, 0, 1] 8 = 2
        ∧ ([(0 : ℚ), 0, 0, 0, 0, 0, 0, 0, 1]).length
            < find_greatest_energy [(0 : ℚ), 0, 0, 0, 0, 0, 0, 0, 1] 8 + 8
        ∧ ((([(0 : ℚ), 0, 0, 0, 0, 0, 0, 0, 1]).drop
            (find_greatest_energy [(0 : ℚ), 0, 0, 0, 0, 0, 0, 0, 1] 8)).take
            8).length < 8)
    ∧ (∀ (data : List ℚ) (N m : ℕ), 0 < N → 4 ∣ N → 1 ≤ m →
        data.length = m * N →
        find_greatest_energy data N + N ≤ data.length) := by
  have heval : find_greatest_energy [(0 : ℚ), 0, 0, 0, 0, 0, 0, 0, 1] 8
      = 2 := by
    norm_num [find_greatest_energy, argmaxFirst, frameMeanSq, frameSumSq,
      List.range_succ]
  refine ⟨?_, ⟨heval, by rw [heval]; decide, by rw [heval]; decide⟩, ?_⟩
  · intro data N h0 hlen
    have h1 : 1 ≤ data.length / N := (Nat.one_le_div_iff h0).mpr hlen
    have hne : (List.range ((data.length / N) * 4)).map
        (frameMeanSq data (N / 4) N) ≠ [] := by
      intro hc
      have hlen0 := congrArg List.length hc
      simp only [List.length_map, List.length_range, List.length_nil] at hlen0
      omega
    refine ⟨argmaxFirst ((List.range ((data.length / N) * 4)).map
      (frameMeanSq data (N / 4) N)), ?_, rfl⟩
    have h := argmaxFirst_lt_length _ hne
    simp only [List.length_map, List.length_range] at h
    omega
  · intro data N m h0 hdvd hm hlen
    exact find_exact_multiple_no_truncation data N m h0 hdvd hm hlen

/-- Witness for C10, discharging the hypotheses of both quantified
conjuncts at concrete inputs. -/
theorem frame_selector_offset_bound_and_truncation_witness :
    0 < 4 ∧ 4 ≤ ([(2 : ℚ), 0, 0, 0]).length
    ∧ (∃ k, k ≤ (([(2 : ℚ), 0, 0, 0]).length / 4) * 4 - 1
        ∧ find_greatest_energy [(2 : ℚ), 0, 0, 0] 4 = (4 / 4) * k)
    ∧ 0 < 8 ∧ (4 : ℕ) ∣ 8 ∧ 1 ≤ 2
    ∧ ([(0 : ℚ), 0, 0, 0, 0, 0, 0, 0, 0, 0, 0, 0, 1, 1, 1, 1]).length = 2 * 8
    ∧ find_greatest_energy
        [(0 : ℚ), 0, 0, 0, 0, 0, 0, 0, 0, 0, 0, 0, 1, 1, 1, 1] 8 + 8
        ≤ ([(0 : ℚ), 0, 0, 0, 0, 0, 0, 0, 0, 0, 0, 0, 1, 1, 1, 1]).length
    := by
  refine ⟨by norm_num, by norm_num, ?_, by norm_num, by norm_num,
    by norm_num, by decide, ?_⟩
  · exact frame_selector_offset_bound_and_truncation.1 [(2 : ℚ), 0, 0, 0] 4
      (by norm_num) (by norm_num)
  · exact frame_selector_offset_bound_and_truncation.2.2
      [(0 : ℚ), 0, 0, 0, 0, 0, 0, 0, 0, 0, 0, 0, 1, 1, 1, 1] 8 2
      (by norm_num) (by norm_num) (by norm_num) (by decide)

end EvSound
